import Mathlib

/-!
Shallow embedding of `src/streamlit_app.py`, the spell-recording collection
app: identity sanitization (`sanitize_username`), audio normalization
(channel mixdown `to_mono`, rational resampling factors
`resample_to_target`, amplitude clamp, int16 quantization, WAV container
encoding inside `save_audio_to_mongo`), and the per-label submission loop
of `main`.

Modelling choices:
* Python strings are lists of Unicode code points (`PyStr := List Nat`);
  only ASCII behaviour of `str.strip`, `str.lower` and the regexes is
  relevant to the program's inputs and is embedded exactly.
* Audio samples are rationals standing for the real-valued float samples;
  `np.clip`, the `* 32767.0` scaling and the truncating `astype(np.int16)`
  conversion are embedded exactly over that field.
* External library calls (the `soundfile` decoder, `scipy`'s
  `resample_poly`, the GridFS connection and its `put`) are fields of an
  `Env` record: they may return any value or raise (`Except.error ()`),
  which models the exceptions caught by the `try`/`except` in
  `save_audio_to_mongo`.
* `scipy.io.wavfile.write` for a 1-D int16 array is embedded concretely as
  `wavEncode`, following its documented RIFF/WAVE output layout.
-/

/-- Python strings, modelled as lists of Unicode code points. -/
abbrev PyStr : Type := List Nat

/-- Code points of a Lean string literal, used to write `PyStr` constants. -/
def pyOfString (s : String) : PyStr := s.data.map Char.toNat

/-- ASCII whitespace recognized by Python's `str.strip` and the regex
class backslash-s: space, tab, newline, carriage return, vertical tab,
form feed. -/
def isPySpace (n : Nat) : Bool :=
  n == 32 || n == 9 || n == 10 || n == 13 || n == 11 || n == 12

/-- Python's `str.strip()`: drop leading and trailing whitespace. -/
def pyStrip (s : PyStr) : PyStr :=
  ((s.dropWhile isPySpace).reverse.dropWhile isPySpace).reverse

/-- Characters kept by the regex `[^a-zA-Z0-9_-]` deletion in
`sanitize_username` (line 61 of the source). -/
def isAllowedChar (n : Nat) : Bool :=
  decide ((97 ≤ n ∧ n ≤ 122) ∨ (65 ≤ n ∧ n ≤ 90) ∨ (48 ≤ n ∧ n ≤ 57) ∨ n = 95 ∨ n = 45)

/-- Alphanumeric ASCII, the class `[a-zA-Z0-9]` of the spell-slug regex. -/
def isAlnumChar (n : Nat) : Bool :=
  decide ((97 ≤ n ∧ n ≤ 122) ∨ (65 ≤ n ∧ n ≤ 90) ∨ (48 ≤ n ∧ n ≤ 57))

/-- Python's `str.lower()` on a code point (ASCII case mapping). -/
def pyLowerChar (n : Nat) : Nat :=
  if 65 ≤ n ∧ n ≤ 90 then n + 32 else n

/-- Code points allowed in a sanitized identity: `[a-z0-9_-]`. -/
def allowedLower (n : Nat) : Bool :=
  decide ((97 ≤ n ∧ n ≤ 122) ∨ (48 ≤ n ∧ n ≤ 57) ∨ n = 95 ∨ n = 45)

/-- The regex substitution `re.sub(r"\s+", "_", s)`: each maximal run of
whitespace becomes a single underscore (code point 95).  The boolean flag
records whether the previous character was inside a whitespace run. -/
def collapseWs : Bool → PyStr → PyStr
  | _, [] => []
  | prev, c :: rest =>
    if isPySpace c then
      if prev then collapseWs true rest else 95 :: collapseWs true rest
    else c :: collapseWs false rest

/-- Embedding of `sanitize_username` (source lines 57-62): falsy input maps
to `"anon"`; otherwise strip, collapse whitespace runs to underscores,
delete characters outside `[a-zA-Z0-9_-]`, lowercase, and fall back to
`"anon"` when the result is empty. -/
def sanitize_username (name : Option PyStr) : PyStr :=
  match name with
  | none => pyOfString "anon"
  | some s =>
    if s = [] then pyOfString "anon"
    else
      let collapsed := collapseWs false (pyStrip s)
      let kept := collapsed.filter isAllowedChar
      let lowered := kept.map pyLowerChar
      if lowered = [] then pyOfString "anon" else lowered

/-- The regex substitution `re.sub(r"[^a-zA-Z0-9]+", "_", s)` used for the
spell slug: each maximal run of non-alphanumeric characters becomes a
single underscore. -/
def slugCollapse : Bool → PyStr → PyStr
  | _, [] => []
  | prev, c :: rest =>
    if isAlnumChar c then c :: slugCollapse false rest
    else if prev then slugCollapse true rest
    else 95 :: slugCollapse true rest

/-- Python's `str.strip("_")`: drop leading and trailing underscores. -/
def stripUnderscores (s : PyStr) : PyStr :=
  ((s.dropWhile (fun c => c == 95)).reverse.dropWhile (fun c => c == 95)).reverse

/-- Embedding of the spell-slug expression on source line 102:
`re.sub(r"[^a-zA-Z0-9]+", "_", spell).strip("_").lower()`. -/
def spellSlug (spell : PyStr) : PyStr :=
  (stripUnderscores (slugCollapse false spell)).map pyLowerChar

/-- Decimal rendering of a natural number as a `PyStr`, for the timestamp
component of the stored filename. -/
def pyNat (n : Nat) : PyStr := pyOfString (toString n)

/-- A decoded numpy sample buffer as returned by `sf.read` with
`always_2d=False`: one-dimensional (mono) or two-dimensional with one row
per sample frame and one column per channel. -/
inductive NDArray : Type
  | d1 (samples : List ℚ)
  | d2 (frames : List (List ℚ))
deriving DecidableEq

/-- Total number of scalar entries, numpy's `ndarray.size`. -/
def ndSize : NDArray → Nat
  | .d1 s => s.length
  | .d2 frames => (frames.map List.length).sum

/-- Numpy's `mean(axis=1)` on a 2-D array: the arithmetic mean of each row
(sum of the row's entries divided by their count). -/
def npMeanAxis1 (frames : List (List ℚ)) : List ℚ :=
  frames.map (fun fr => fr.sum / (fr.length : ℚ))

/-- Embedding of `to_mono` (source lines 65-68): a 2-D buffer is averaged
across channels, a 1-D buffer passes through unchanged. -/
def to_mono : NDArray → List ℚ
  | .d2 frames => npMeanAxis1 frames
  | .d1 s => s

/-- The canonical sample rate, `TARGET_SR` on source line 38. -/
def TARGET_SR : Nat := 16000

/-- Embedding of `resample_to_target` (source lines 71-77).  The first
argument stands for the external `scipy.signal.resample_poly` call, taking
the buffer and the `up` and `down` factors and possibly raising. -/
def resample_to_target (rp : List ℚ → Nat → Nat → Except Unit (List ℚ))
    (audio : List ℚ) (sr : Nat) (target_sr : Nat) : Except Unit (List ℚ) :=
  if sr = target_sr then .ok audio
  else
    let g := Nat.gcd sr target_sr
    rp audio (target_sr / g) (sr / g)

/-- Numpy's `np.clip(x, -1.0, 1.0)` on one sample: values below the
interval become its lower endpoint, values above it become the upper
endpoint, values inside pass through. -/
def np_clip (x : ℚ) : ℚ := if x ≤ -1 then -1 else if 1 ≤ x then 1 else x

/-- Truncation toward zero, the C-cast semantics of numpy's
`astype(np.int16)` applied to a float value: the truncating division of
the numerator by the denominator. -/
def truncQ (x : ℚ) : ℤ := x.num.tdiv x.den

/-- Wrap-around to the signed 16-bit range, completing the `astype` cast. -/
def toInt16 (n : ℤ) : ℤ := (n + 32768) % 65536 - 32768

/-- One sample of `(audio * 32767.0).astype(np.int16)` (source line 92). -/
def quant16 (x : ℚ) : ℤ := toInt16 (truncQ (x * 32767))

/-- Little-endian bytes of an unsigned 16-bit value. -/
def le16 (n : Nat) : List Nat := [n % 256, n / 256 % 256]

/-- Little-endian bytes of an unsigned 32-bit value. -/
def le32 (n : Nat) : List Nat :=
  [n % 256, n / 256 % 256, n / 65536 % 256, n / 16777216 % 256]

/-- Little-endian two's-complement bytes of a signed 16-bit sample. -/
def int16le (s : ℤ) : List Nat := le16 (s % 65536).toNat

/-- Embedding of `scipy.io.wavfile.write` for a rate and a 1-D int16
array, per its documented output, written out byte by byte: the RIFF
magic and chunk size, the WAVE form type, a 16-byte PCM `fmt ` chunk
(format tag 1, one channel, the given rate, byte rate `2 * rate`, block
align 2, 16 bits per sample, every multi-byte field little-endian) and a
`data` chunk of little-endian two's-complement samples. -/
def wavEncode (rate : Nat) (pcm : List ℤ) : List Nat :=
  82 :: 73 :: 70 :: 70 ::
  (36 + 2 * pcm.length) % 256 :: (36 + 2 * pcm.length) / 256 % 256 ::
  (36 + 2 * pcm.length) / 65536 % 256 :: (36 + 2 * pcm.length) / 16777216 % 256 ::
  87 :: 65 :: 86 :: 69 :: 102 :: 109 :: 116 :: 32 ::
  16 :: 0 :: 0 :: 0 ::
  1 :: 0 ::
  1 :: 0 ::
  rate % 256 :: rate / 256 % 256 :: rate / 65536 % 256 :: rate / 16777216 % 256 ::
  (2 * rate) % 256 :: (2 * rate) / 256 % 256 ::
  (2 * rate) / 65536 % 256 :: (2 * rate) / 16777216 % 256 ::
  2 :: 0 ::
  16 :: 0 ::
  100 :: 97 :: 116 :: 97 ::
  (2 * pcm.length) % 256 :: (2 * pcm.length) / 256 % 256 ::
  (2 * pcm.length) / 65536 % 256 :: (2 * pcm.length) / 16777216 % 256 ::
  pcm.flatMap int16le

/-- Validity of a stored byte buffer as a canonical WAV container: RIFF
and WAVE magic, a PCM `fmt ` chunk declaring one channel, 16000 Hz,
16 bits per sample, consistent sizes, and byte-valued entries. -/
def isCanonicalWav (b : List Nat) : Bool :=
  decide (44 ≤ b.length) &&
  (b.take 4 == [82, 73, 70, 70]) &&
  ((b.drop 4).take 4 == le32 (b.length - 8)) &&
  ((b.drop 8).take 8 == [87, 65, 86, 69, 102, 109, 116, 32]) &&
  ((b.drop 16).take 4 == le32 16) &&
  ((b.drop 20).take 2 == le16 1) &&
  ((b.drop 22).take 2 == le16 1) &&
  ((b.drop 24).take 4 == le32 16000) &&
  ((b.drop 28).take 4 == le32 32000) &&
  ((b.drop 32).take 2 == le16 2) &&
  ((b.drop 34).take 2 == le16 16) &&
  ((b.drop 36).take 4 == [100, 97, 116, 97]) &&
  ((b.drop 40).take 4 == le32 (b.length - 44)) &&
  (b.length % 2 == 0) &&
  b.all (fun x => decide (x < 256))

/-- Arguments of one GridFS `put` call (source line 111) together with the
metadata fields that vary per call. -/
structure PutCall : Type where
  bytes : List Nat
  filename : PyStr
  username : PyStr
  spell : PyStr
  timestamp_ms : Nat
deriving DecidableEq, Inhabited

/-- The external collaborators of the script: the `soundfile` decoder, the
`resample_poly` routine, the GridFS connection attempt (which may raise)
behind the `MONGO_URI` configuration, and the wall clock. -/
structure Env : Type where
  decode : List Nat → Except Unit (NDArray × Nat)
  rp : List ℚ → Nat → Nat → Except Unit (List ℚ)
  mongo_uri : PyStr
  gridfs_conn : Except Unit (PutCall → Except Unit PyStr)
  now_ms : Nat

/-- Embedding of `get_gridfs` (source lines 45-54): an empty `MONGO_URI`
yields no handle; otherwise the connection attempt may raise. -/
def get_gridfs (env : Env) : Except Unit (Option (PutCall → Except Unit PyStr)) :=
  if env.mongo_uri = [] then .ok none
  else
    match env.gridfs_conn with
    | .error e => .error e
    | .ok fs => .ok (some fs)

/-- The normalization stage of `save_audio_to_mongo` (source lines 83-95):
decode, reject an empty buffer, mix down, resample, clamp, quantize and
encode as WAV; `none` stands for a caught exception or the empty-buffer
early return. -/
def normalize_stage (env : Env) (audio_bytes : List Nat) : Option (List Nat) :=
  match env.decode audio_bytes with
  | .error _ => none
  | .ok (audio, sr) =>
    if ndSize audio = 0 then none
    else
      match resample_to_target env.rp (to_mono audio) sr TARGET_SR with
      | .error _ => none
      | .ok res =>
        let clipped := res.map np_clip
        let pcm16 := clipped.map quant16
        some (wavEncode TARGET_SR pcm16)

/-- Embedding of `save_audio_to_mongo` (source lines 80-115): normalize,
fetch the GridFS handle, build filename and metadata, and `put`.  The
result pairs the returned identifier (`none` for any caught exception,
missing handle, or failed stage) with the list of `put` calls that were
issued. -/
def save_audio_to_mongo (env : Env) (audio_bytes : List Nat)
    (spell : PyStr) (username : PyStr) : Option PyStr × List PutCall :=
  match normalize_stage env audio_bytes with
  | none => (none, [])
  | some wav_bytes =>
    match get_gridfs env with
    | .error _ => (none, [])
    | .ok none => (none, [])
    | .ok (some put) =>
      let ts := env.now_ms
      let fname := spellSlug spell ++ [95] ++ username ++ [95] ++ pyNat ts ++ pyOfString ".wav"
      let pc : PutCall := ⟨wav_bytes, fname, username, spell, ts⟩
      match put pc with
      | .error _ => (none, [pc])
      | .ok fid => (some fid, [pc])

/-- The fixed ordered label set `SPELLS` (source line 39). -/
def SPELLS : List PyStr :=
  [pyOfString "Lumos", pyOfString "Nox", pyOfString "Alohomora",
   pyOfString "Wingardium Leviosa", pyOfString "Accio", pyOfString "Reparo"]

/-- Outcome of pressing the submit button (source lines 157-190): one of
the two rejection messages, or a report of saved `(spell, id)` pairs and
skipped spells; the third component records every `put` call issued. -/
inductive SubmitOutcome : Type
  | errEmptyName
  | errNoRecordings
  | report (saved : List (PyStr × PyStr)) (skipped : List PyStr) (puts : List PutCall)
deriving DecidableEq

/-- The `for spell in SPELLS` loop of `main` (source lines 168-177),
returning the saved pairs, the skipped spells and the issued `put` calls
in iteration order.  A returned identifier that is falsy (empty) lands in
`skipped`, matching the `if file_id:` truthiness test. -/
def submit_loop (env : Env) (user : PyStr) (files : PyStr → Option (List Nat)) :
    List PyStr → List (PyStr × PyStr) × List PyStr × List PutCall
  | [] => ([], [], [])
  | sp :: rest =>
    let tail := submit_loop env user files rest
    match files sp with
    | none => (tail.1, sp :: tail.2.1, tail.2.2)
    | some bytes =>
      let r := save_audio_to_mongo env bytes sp user
      match r.1 with
      | none => (tail.1, sp :: tail.2.1, r.2 ++ tail.2.2)
      | some fid =>
        if fid = [] then (tail.1, sp :: tail.2.1, r.2 ++ tail.2.2)
        else ((sp, fid) :: tail.1, tail.2.1, r.2 ++ tail.2.2)

/-- Embedding of the submit branch of `main` (source lines 157-190):
reject a whitespace-only name, then reject an empty recording set, then
sanitize the identity and run the loop over `SPELLS`. -/
def submit (env : Env) (username : PyStr) (files : PyStr → Option (List Nat)) :
    SubmitOutcome :=
  if pyStrip username = [] then .errEmptyName
  else if (SPELLS.filter (fun sp => (files sp).isSome)).length = 0 then .errNoRecordings
  else
    let user := sanitize_username (some username)
    let r := submit_loop env user files SPELLS
    .report r.1 r.2.1 r.2.2

/-- Net outcome of one label inside the loop: the identifier under which
it is saved, or `none` when it is skipped (no recording, pipeline failure,
or falsy identifier). -/
def labelResult (env : Env) (user : PyStr) (files : PyStr → Option (List Nat))
    (sp : PyStr) : Option PyStr :=
  match files sp with
  | none => none
  | some bytes =>
    match (save_audio_to_mongo env bytes sp user).1 with
    | none => none
    | some fid => if fid = [] then none else some fid

/-- The `put` calls issued while processing one label. -/
def labelPuts (env : Env) (user : PyStr) (files : PyStr → Option (List Nat))
    (sp : PyStr) : List PutCall :=
  match files sp with
  | none => []
  | some bytes => (save_audio_to_mongo env bytes sp user).2

/-- Concatenation of the `put` calls of a list of labels. -/
def putsOf (env : Env) (user : PyStr) (files : PyStr → Option (List Nat)) :
    List PyStr → List PutCall
  | [] => []
  | sp :: rest => labelPuts env user files sp ++ putsOf env user files rest

/-- Saved entries of an outcome (empty for a rejection). -/
def reportSaved : SubmitOutcome → List (PyStr × PyStr)
  | .report s _ _ => s
  | _ => []

/-- Skipped labels of an outcome (empty for a rejection). -/
def reportSkipped : SubmitOutcome → List PyStr
  | .report _ k _ => k
  | _ => []

/-- Issued `put` calls of an outcome (empty for a rejection). -/
def reportPuts : SubmitOutcome → List PutCall
  | .report _ _ p => p
  | _ => []

/-! ### Concrete fixtures for end-to-end scenarios -/

/-- Resampler stub returning its input unchanged, for concrete runs. -/
def rpId : List ℚ → Nat → Nat → Except Unit (List ℚ) :=
  fun a _ _ => .ok a

/-- Environment in which every collaborator succeeds: decoding yields one
mono sample at the canonical rate, the connection string is set, and the
store's put returns an identifier derived from the spell. -/
def envOk : Env :=
  ⟨fun _ => .ok (.d1 [1/2], 16000), rpId, pyOfString "mongodb://db",
    .ok (fun pc => .ok (pyOfString "id-" ++ pc.spell)), 0⟩

/-- Environment with no connection string configured; decoding still
succeeds with one mono sample at the canonical rate. -/
def envNoUri : Env :=
  ⟨fun _ => .ok (.d1 [1/2], 16000), rpId, [], .error (), 0⟩

/-- Recordings supplied for the labels Lumos and Nox only. -/
def filesRon : PyStr → Option (List Nat) := fun sp =>
  if sp = pyOfString "Lumos" ∨ sp = pyOfString "Nox" then some [1] else none

/-- A single recording, supplied for the label Lumos. -/
def filesLumos : PyStr → Option (List Nat) := fun sp =>
  if sp = pyOfString "Lumos" then some [1] else none

/-! ### Helper lemmas: quantization arithmetic -/

/-- On nonnegative rationals, truncation toward zero is the floor. -/
theorem truncQ_eq_floor (x : ℚ) (h : 0 ≤ x) : truncQ x = ⌊x⌋ := by
  rw [truncQ, Rat.floor_def]
  exact Int.tdiv_eq_ediv (Rat.num_nonneg.mpr h) (Int.ofNat_nonneg x.den)

/-- On nonpositive rationals, truncation toward zero is the ceiling. -/
theorem truncQ_eq_ceil (x : ℚ) (h : x ≤ 0) : truncQ x = ⌈x⌉ := by
  have hc : ⌈x⌉ = -⌊-x⌋ := by rw [Int.floor_neg, neg_neg]
  rw [hc, Rat.floor_def, Rat.num_neg_eq_neg_num, Rat.den_neg_eq_den]
  have hnum : (0 : ℤ) ≤ -x.num := by
    have := Rat.num_nonpos.mpr h
    omega
  rw [← Int.tdiv_eq_ediv hnum (Int.ofNat_nonneg x.den), Int.neg_tdiv, neg_neg, truncQ]

/-- Values already inside the signed 16-bit range are fixed by the
wrap-around cast. -/
theorem toInt16_eq_self (n : ℤ) (h1 : -32768 ≤ n) (h2 : n < 32768) : toInt16 n = n := by
  unfold toInt16
  omega

/-- The clamp always lands in the closed interval. -/
theorem np_clip_mem (x : ℚ) : -1 ≤ np_clip x ∧ np_clip x ≤ 1 := by
  rw [np_clip]
  split
  · constructor <;> norm_num
  · split
    · constructor <;> norm_num
    · rename_i h1 h2
      rw [not_le] at h1 h2
      constructor <;> linarith

/-- The clamp truncates: in-range values pass through unchanged. -/
theorem np_clip_eq_self (x : ℚ) (h1 : -1 ≤ x) (h2 : x ≤ 1) : np_clip x = x := by
  rw [np_clip]
  split
  · rename_i h
    exact (le_antisymm h h1).symm
  · split
    · rename_i h
      exact (le_antisymm h2 h).symm
    · rfl

/-- Samples above the range clamp to one. -/
theorem np_clip_high (x : ℚ) (h : 1 < x) : np_clip x = 1 := by
  rw [np_clip]
  split
  · rename_i h1
    linarith
  · split
    · rfl
    · rename_i h1 h2
      rw [not_le] at h2
      linarith

/-- Samples below the range clamp to minus one. -/
theorem np_clip_low (x : ℚ) (h : x < -1) : np_clip x = -1 := by
  rw [np_clip]
  split
  · rfl
  · rename_i h1
    rw [not_le] at h1
    linarith

/-- Truncation of a rational in the symmetric 16-bit sample range stays in
that range. -/
theorem truncQ_bounds (q : ℚ) (h1 : -32767 ≤ q) (h2 : q ≤ 32767) :
    -32767 ≤ truncQ q ∧ truncQ q ≤ 32767 := by
  rcases le_or_lt 0 q with hq | hq
  · rw [truncQ_eq_floor q hq]
    constructor
    · have : (0 : ℤ) ≤ ⌊q⌋ := Int.floor_nonneg.mpr hq
      omega
    · have h3 : (⌊q⌋ : ℚ) ≤ 32767 := le_trans (Int.floor_le q) h2
      exact_mod_cast h3
  · rw [truncQ_eq_ceil q (le_of_lt hq)]
    constructor
    · have h3 : (-32767 : ℚ) ≤ ⌈q⌉ := le_trans h1 (Int.le_ceil q)
      exact_mod_cast h3
    · have : ⌈q⌉ ≤ (0 : ℤ) := Int.ceil_le.mpr (by exact_mod_cast hq.le)
      omega

/-- The quantized value of a clamped sample is truncation without any
wrap-around, and lies in the symmetric 16-bit range. -/
theorem quant16_clip_spec (x : ℚ) :
    quant16 (np_clip x) = truncQ (np_clip x * 32767)
      ∧ -32767 ≤ quant16 (np_clip x) ∧ quant16 (np_clip x) ≤ 32767 := by
  obtain ⟨hlo, hhi⟩ := np_clip_mem x
  have hq1 : (-32767 : ℚ) ≤ np_clip x * 32767 := by nlinarith
  have hq2 : np_clip x * 32767 ≤ 32767 := by nlinarith
  obtain ⟨hb1, hb2⟩ := truncQ_bounds _ hq1 hq2
  have hid : toInt16 (truncQ (np_clip x * 32767)) = truncQ (np_clip x * 32767) :=
    toInt16_eq_self _ (by omega) (by omega)
  exact ⟨hid, by rw [quant16, hid]; omega⟩

/-- Quantizing a full-scale positive sample yields the top of the range. -/
theorem quant16_one : quant16 1 = 32767 := by
  have h1 : ((1 : ℚ) * 32767) = (32767 : ℚ) := by norm_num
  have h2 : ⌊(32767 : ℚ)⌋ = 32767 := by norm_num
  rw [quant16, h1, truncQ_eq_floor _ (by norm_num), h2, toInt16]
  omega

/-- Quantizing a full-scale negative sample yields the bottom of the
symmetric range. -/
theorem quant16_neg_one : quant16 (-1) = -32767 := by
  have h1 : ((-1 : ℚ) * 32767) = (-32767 : ℚ) := by norm_num
  have h2 : ⌈(-32767 : ℚ)⌉ = -32767 := by
    rw [show (-32767 : ℚ) = ((-32767 : ℤ) : ℚ) from by norm_num]
    exact Int.ceil_intCast _
  rw [quant16, h1, truncQ_eq_ceil _ (by norm_num), h2, toInt16]
  omega

/-! ### Helper lemmas: sanitization alphabet -/

/-- Lowercasing a character kept by the sanitizer's filter lands in the
lowercase output alphabet. -/
theorem allowed_pyLower (c : Nat) (h : isAllowedChar c = true) :
    allowedLower (pyLowerChar c) = true := by
  simp only [isAllowedChar, decide_eq_true_eq] at h
  simp only [pyLowerChar, allowedLower, decide_eq_true_eq]
  split <;> omega

/-- Every code point of a sanitized identity is lowercase alphanumeric, an
underscore or a hyphen. -/
theorem sanitize_chars (name : Option PyStr) (c : Nat)
    (h : c ∈ sanitize_username name) : allowedLower c = true := by
  have hanon : ∀ x ∈ pyOfString "anon", allowedLower x = true := by decide
  match name with
  | none => exact hanon c h
  | some s =>
    simp only [sanitize_username] at h
    split at h
    · exact hanon c h
    · split at h
      · exact hanon c h
      · obtain ⟨c', hc', rfl⟩ := List.mem_map.mp h
        exact allowed_pyLower c' (List.mem_filter.mp hc').2

/-- The sanitized identity is never the empty string. -/
theorem sanitize_length_pos (name : Option PyStr) :
    0 < (sanitize_username name).length := by
  have hanon : 0 < (pyOfString "anon").length := by decide
  match name with
  | none => exact hanon
  | some s =>
    simp only [sanitize_username]
    split
    · exact hanon
    · split
      · exact hanon
      · rename_i hz
        exact List.length_pos.mpr hz

/-! ### Helper lemmas: the WAV container -/

/-- Each encoded sample contributes exactly two bytes. -/
theorem flatMap_int16le_length (pcm : List ℤ) :
    (pcm.flatMap int16le).length = 2 * pcm.length := by
  induction pcm with
  | nil => rfl
  | cons s rest ih =>
    simp only [List.flatMap_cons, List.length_append, ih, int16le, le16,
      List.length_cons, List.length_nil]
    omega

/-- Total size of the encoded container: a 44-byte header plus two bytes
per sample. -/
theorem wavEncode_length (rate : Nat) (pcm : List ℤ) :
    (wavEncode rate pcm).length = 44 + 2 * pcm.length := by
  simp only [wavEncode, List.length_cons, flatMap_int16le_length]
  omega

/-- Every entry of the encoded container is a byte. -/
theorem wavEncode_bytes (rate : Nat) (pcm : List ℤ) :
    ∀ x ∈ wavEncode rate pcm, x < 256 := by
  simp only [wavEncode, List.forall_mem_cons]
  repeat' apply And.intro
  all_goals try omega
  intro x hx
  obtain ⟨s, _, hmem⟩ := List.mem_flatMap.mp hx
  simp only [int16le, le16, List.mem_cons, List.not_mem_nil, or_false] at hmem
  omega

/-- The encoder always emits a canonical mono 16 kHz PCM16 WAV container
when invoked at the canonical rate. -/
theorem wavEncode_canonical (pcm : List ℤ) :
    isCanonicalWav (wavEncode TARGET_SR pcm) = true := by
  have hlen : (wavEncode TARGET_SR pcm).length = 44 + 2 * pcm.length :=
    wavEncode_length TARGET_SR pcm
  simp only [isCanonicalWav, Bool.and_eq_true, beq_iff_eq, decide_eq_true_eq]
  refine ⟨⟨⟨⟨⟨⟨⟨⟨⟨⟨⟨⟨⟨⟨?_, ?_⟩, ?_⟩, ?_⟩, ?_⟩, ?_⟩, ?_⟩, ?_⟩, ?_⟩, ?_⟩, ?_⟩, ?_⟩, ?_⟩, ?_⟩, ?_⟩
  · omega
  · rfl
  · have e : ((wavEncode TARGET_SR pcm).drop 4).take 4 = le32 (36 + 2 * pcm.length) := rfl
    rw [e, hlen]
    congr 1
    omega
  · rfl
  · rfl
  · rfl
  · rfl
  · rfl
  · rfl
  · rfl
  · rfl
  · rfl
  · have e : ((wavEncode TARGET_SR pcm).drop 40).take 4 = le32 (2 * pcm.length) := rfl
    rw [e, hlen]
    congr 1
    omega
  · omega
  · rw [List.all_eq_true]
    intro x hx
    exact decide_eq_true (wavEncode_bytes TARGET_SR pcm x hx)

/-! ### Helper lemmas: the submission loop -/

/-- The loop is, label by label, the filter-map of `labelResult` for the
saved pairs, the filter of its failures for the skipped list, and the
concatenation of `labelPuts` for the issued calls. -/
theorem submit_loop_eq (env : Env) (user : PyStr) (files : PyStr → Option (List Nat))
    (l : List PyStr) :
    submit_loop env user files l =
      (l.filterMap (fun sp => (labelResult env user files sp).map (fun fid => (sp, fid))),
       l.filter (fun sp => (labelResult env user files sp).isNone),
       putsOf env user files l) := by
  induction l with
  | nil => rfl
  | cons sp rest ih =>
    simp only [submit_loop, ih, List.filterMap_cons, List.filter_cons, putsOf]
    cases hf : files sp with
    | none =>
      simp [labelResult, labelPuts, hf]
    | some bytes =>
      cases hr : (save_audio_to_mongo env bytes sp user).1 with
      | none =>
        simp [labelResult, labelPuts, hf, hr]
      | some fid =>
        by_cases hz : fid = []
        · simp [labelResult, labelPuts, hf, hr, hz]
        · simp [labelResult, labelPuts, hf, hr, hz]

/-- Projecting the saved pairs to their labels recovers the labels whose
result is a success, in list order. -/
theorem map_fst_filterMap_labels (l : List PyStr) (g : PyStr → Option PyStr) :
    (l.filterMap (fun sp => (g sp).map (fun fid => (sp, fid)))).map Prod.fst =
      l.filter (fun sp => (g sp).isSome) := by
  induction l with
  | nil => rfl
  | cons a rest ih =>
    cases hg : g a <;>
      simp [List.filterMap_cons, hg, List.filter_cons, ih]

/-- A submission that passes both input checks produces a report, equal
to the one rebuilt from its own projections. -/
theorem submit_is_report (env : Env) (username : PyStr) (files : PyStr → Option (List Nat))
    (hname : pyStrip username ≠ [])
    (hsel : (SPELLS.filter (fun sp => (files sp).isSome)).length ≠ 0) :
    submit env username files =
      .report (reportSaved (submit env username files))
        (reportSkipped (submit env username files))
        (reportPuts (submit env username files)) := by
  rw [submit, if_neg hname, if_neg hsel]
  rfl

/-! ### Claims -/

/-- C4: identity sanitization lowercases, collapses each maximal
whitespace run to a single underscore and removes every character outside
the class `[a-z0-9_-]` — every output code point lies in that class — and
in particular it maps "Harry Potter" to "harry_potter", the empty or
absent input to "anon", and "a!!b  c" (two spaces) to "ab_c". -/
theorem C4_sanitize_spec :
    sanitize_username (some (pyOfString "Harry Potter")) = pyOfString "harry_potter"
    ∧ sanitize_username (some (pyOfString "")) = pyOfString "anon"
    ∧ sanitize_username none = pyOfString "anon"
    ∧ sanitize_username (some (pyOfString "a!!b  c")) = pyOfString "ab_c"
    ∧ ∀ name : Option PyStr, (sanitize_username name).all allowedLower = true := by
  refine ⟨by decide, by decide, by decide, by decide, ?_⟩
  intro name
  rw [List.all_eq_true]
  intro c hc
  exact sanitize_chars name c hc

/-- C5: channel reduction maps a multi-channel buffer frame by frame to
the arithmetic mean of its channels — the output has one value per frame,
the value at each sample index is the sum of that frame's channel samples
divided by the channel count — while a one-dimensional buffer passes
through unchanged; on the synthetic two-channel buffer with frames (1,3)
and (2,4) it yields the means 2 and 3. -/
theorem C5_to_mono_mean :
    (∀ frames : List (List ℚ), (to_mono (.d2 frames)).length = frames.length)
    ∧ (∀ (frames : List (List ℚ)) (i : Nat) (h1 : i < frames.length)
        (h2 : i < (to_mono (.d2 frames)).length),
        (to_mono (.d2 frames)).get ⟨i, h2⟩ =
          (frames.get ⟨i, h1⟩).sum / ((frames.get ⟨i, h1⟩).length : ℚ))
    ∧ (∀ s : List ℚ, to_mono (.d1 s) = s)
    ∧ to_mono (.d2 [[1, 3], [2, 4]]) = [2, 3] := by
  refine ⟨?_, ?_, fun s => rfl, by norm_num [to_mono, npMeanAxis1]⟩
  · intro frames
    simp [to_mono, npMeanAxis1]
  · intro frames i h1 h2
    simp [to_mono, npMeanAxis1]

/-- C5 witness at the concrete two-channel frame list with the single
frame (5, 7): the mean sample is their average. -/
theorem C5_to_mono_mean_witness :
    (0 < ([[(5 : ℚ), 7]] : List (List ℚ)).length)
    ∧ (to_mono (.d2 [[(5 : ℚ), 7]])).get ⟨0, by norm_num [to_mono, npMeanAxis1]⟩ =
        (([[(5 : ℚ), 7]] : List (List ℚ)).get ⟨0, by norm_num⟩).sum /
          ((([[(5 : ℚ), 7]] : List (List ℚ)).get ⟨0, by norm_num⟩).length : ℚ) :=
  ⟨by norm_num,
   C5_to_mono_mean.2.1 [[(5 : ℚ), 7]] 0 (by norm_num) (by norm_num [to_mono, npMeanAxis1])⟩

/-- C6: when the decoded rate already equals the 16000 Hz target the
resampler returns the buffer unchanged; for any other rate it invokes the
polyphase routine with upsampling factor 16000 divided by gcd(R, 16000)
and downsampling factor R divided by the same gcd, and those two factors
form a reduced (coprime) fraction. -/
theorem C6_resample_factors :
    (∀ (rp : List ℚ → Nat → Nat → Except Unit (List ℚ)) (audio : List ℚ),
        resample_to_target rp audio TARGET_SR TARGET_SR = .ok audio)
    ∧ (∀ (rp : List ℚ → Nat → Nat → Except Unit (List ℚ)) (audio : List ℚ) (sr : Nat),
        sr ≠ TARGET_SR →
        resample_to_target rp audio sr TARGET_SR =
          rp audio (TARGET_SR / Nat.gcd sr TARGET_SR) (sr / Nat.gcd sr TARGET_SR))
    ∧ (∀ sr : Nat,
        Nat.Coprime (TARGET_SR / Nat.gcd sr TARGET_SR) (sr / Nat.gcd sr TARGET_SR)) := by
  refine ⟨fun rp audio => by rw [resample_to_target, if_pos rfl], ?_, ?_⟩
  · intro rp audio sr h
    rw [resample_to_target, if_neg h]
  · intro sr
    rw [Nat.gcd_comm sr TARGET_SR]
    exact Nat.coprime_div_gcd_div_gcd (Nat.gcd_pos_of_pos_left sr (by norm_num [TARGET_SR]))

/-- C6 witness at the concrete rate 44100: the call goes to the polyphase
routine with the reduced factors of 16000 over 44100. -/
theorem C6_resample_factors_witness :
    (44100 ≠ TARGET_SR)
    ∧ resample_to_target rpId [3] 44100 TARGET_SR =
        rpId [3] (TARGET_SR / Nat.gcd 44100 TARGET_SR) (44100 / Nat.gcd 44100 TARGET_SR) :=
  ⟨by decide, C6_resample_factors.2.1 rpId [3] 44100 (by decide)⟩

/-- C7: before quantization each sample is clamped to the closed interval
from minus one to one (in-range samples are unchanged — truncation, not
rescaling); quantization multiplies by 32767 and truncates to a signed
16-bit value, so a sample above 1 gives exactly 32767, a sample below
minus 1 gives exactly minus 32767, and on every clamped sample the 16-bit
wrap-around is the identity (no wrap or overflow) with the result
confined to the symmetric range. -/
theorem C7_clamp_quantize :
    (∀ x : ℚ, -1 ≤ np_clip x ∧ np_clip x ≤ 1)
    ∧ (∀ x : ℚ, -1 ≤ x → x ≤ 1 → np_clip x = x)
    ∧ (∀ x : ℚ, 1 < x → quant16 (np_clip x) = 32767)
    ∧ (∀ x : ℚ, x < -1 → quant16 (np_clip x) = -32767)
    ∧ (∀ x : ℚ, quant16 (np_clip x) = truncQ (np_clip x * 32767)
        ∧ -32767 ≤ quant16 (np_clip x) ∧ quant16 (np_clip x) ≤ 32767) := by
  refine ⟨np_clip_mem, np_clip_eq_self, ?_, ?_, quant16_clip_spec⟩
  · intro x h
    rw [np_clip_high x h]
    exact quant16_one
  · intro x h
    rw [np_clip_low x h]
    exact quant16_neg_one

/-- C7 witness at the concrete overdriven samples 2 and minus 3, and the
in-range sample one half. -/
theorem C7_clamp_quantize_witness :
    ((1 : ℚ) < 2 ∧ quant16 (np_clip 2) = 32767)
    ∧ ((-3 : ℚ) < -1 ∧ quant16 (np_clip (-3)) = -32767)
    ∧ ((-1 : ℚ) ≤ 1/2 ∧ (1/2 : ℚ) ≤ 1 ∧ np_clip (1/2) = 1/2) :=
  ⟨⟨by norm_num, C7_clamp_quantize.2.2.1 2 (by norm_num)⟩,
   ⟨by norm_num, C7_clamp_quantize.2.2.2.1 (-3) (by norm_num)⟩,
   ⟨by norm_num, by norm_num, C7_clamp_quantize.2.1 (1/2) (by norm_num) (by norm_num)⟩⟩

/-- C3: a submission whose identity is empty after trimming, or which
carries no recording for any label, is rejected before any processing:
the outcome is one of the two rejection messages, no item is saved, the
store's put is never invoked, and the outcome does not depend on the
store or any other collaborator. -/
theorem C3_reject_before_processing (env env' : Env) (username : PyStr)
    (files : PyStr → Option (List Nat))
    (h : pyStrip username = [] ∨ (SPELLS.filter (fun sp => (files sp).isSome)).length = 0) :
    (submit env username files = .errEmptyName
      ∨ submit env username files = .errNoRecordings)
    ∧ reportSaved (submit env username files) = []
    ∧ reportPuts (submit env username files) = []
    ∧ submit env username files = submit env' username files := by
  have key : ∀ e : Env, submit e username files =
      if pyStrip username = [] then SubmitOutcome.errEmptyName
      else SubmitOutcome.errNoRecordings := by
    intro e
    rcases h with h | h
    · rw [submit, if_pos h, if_pos h]
    · by_cases h1 : pyStrip username = []
      · rw [submit, if_pos h1, if_pos h1]
      · rw [submit, if_neg h1, if_pos h, if_neg h1]
  refine ⟨?_, ?_, ?_, by rw [key env, key env']⟩
  · rw [key env]
    by_cases h1 : pyStrip username = []
    · rw [if_pos h1]; exact Or.inl rfl
    · rw [if_neg h1]; exact Or.inr rfl
  · rw [key env]
    by_cases h1 : pyStrip username = []
    · rw [if_pos h1]; rfl
    · rw [if_neg h1]; rfl
  · rw [key env]
    by_cases h1 : pyStrip username = []
    · rw [if_pos h1]; rfl
    · rw [if_neg h1]; rfl

/-- C3 witness: the whitespace identity with one recording supplied is
rejected identically under the configured and the unconfigured store. -/
theorem C3_reject_before_processing_witness :
    (submit envOk (pyOfString " ") filesLumos = .errEmptyName
      ∨ submit envOk (pyOfString " ") filesLumos = .errNoRecordings)
    ∧ reportSaved (submit envOk (pyOfString " ") filesLumos) = []
    ∧ reportPuts (submit envOk (pyOfString " ") filesLumos) = []
    ∧ submit envOk (pyOfString " ") filesLumos = submit envNoUri (pyOfString " ") filesLumos :=
  C3_reject_before_processing envOk envNoUri (pyOfString " ") filesLumos (Or.inl (by decide))

/-- C9: with no connection string configured the store degrades to a
no-op failure instead of raising — `save_audio_to_mongo` returns no
identifier and issues no put call whatever the input — and in the
end-to-end scenario with one valid recording the normalization stage
succeeds, yet the submission returns a report (no exception) in which
every label, including the recorded one, is skipped rather than saved. -/
theorem C9_unconfigured_store_noop (env : Env) (b : List Nat) (sp u : PyStr)
    (h : env.mongo_uri = []) :
    save_audio_to_mongo env b sp u = (none, [])
    ∧ (normalize_stage envNoUri [1]).isSome = true
    ∧ submit envNoUri (pyOfString "Ron") filesLumos = .report [] SPELLS [] := by
  refine ⟨?_, by decide, by decide⟩
  rw [save_audio_to_mongo]
  cases hn : normalize_stage env b with
  | none => rfl
  | some wav =>
    rw [get_gridfs, if_pos h]

/-- C9 witness at the unconfigured environment and the recorded label. -/
theorem C9_unconfigured_store_noop_witness :
    save_audio_to_mongo envNoUri [1] (pyOfString "Lumos") (pyOfString "ron") = (none, [])
    ∧ (normalize_stage envNoUri [1]).isSome = true
    ∧ submit envNoUri (pyOfString "Ron") filesLumos = .report [] SPELLS [] :=
  C9_unconfigured_store_noop envNoUri [1] (pyOfString "Lumos") (pyOfString "ron") rfl

/-- C2: once a submission passes the input checks, the outcome is always
a full report computed label by label — each label's classification
depends only on its own `labelResult`, which is `none` for a decode
failure, an empty decoded buffer, a raised resampling stage, a missing
store handle, a failed put or a falsy identifier — a label whose pipeline
fails is listed as skipped and never among the saved pairs while the
remaining labels are still processed, a failed normalization stage issues
no put call at all for its label, and a decode error is one such failure
of the normalization stage. -/
theorem C2_per_label_isolation (env : Env) (username : PyStr)
    (files : PyStr → Option (List Nat))
    (hname : pyStrip username ≠ [])
    (hsel : (SPELLS.filter (fun sp => (files sp).isSome)).length ≠ 0) :
    submit env username files =
      .report
        (SPELLS.filterMap (fun sp =>
          (labelResult env (sanitize_username (some username)) files sp).map
            (fun fid => (sp, fid))))
        (SPELLS.filter (fun sp =>
          (labelResult env (sanitize_username (some username)) files sp).isNone))
        (putsOf env (sanitize_username (some username)) files SPELLS)
    ∧ (∀ sp ∈ SPELLS,
        labelResult env (sanitize_username (some username)) files sp = none →
          sp ∈ reportSkipped (submit env username files)
          ∧ ∀ fid, (sp, fid) ∉ reportSaved (submit env username files))
    ∧ (∀ (b : List Nat) (sp2 u : PyStr), normalize_stage env b = none →
        save_audio_to_mongo env b sp2 u = (none, []))
    ∧ (∀ b : List Nat, env.decode b = .error () → normalize_stage env b = none) := by
  have hmain : submit env username files =
      SubmitOutcome.report
        (SPELLS.filterMap (fun sp =>
          (labelResult env (sanitize_username (some username)) files sp).map
            (fun fid => (sp, fid))))
        (SPELLS.filter (fun sp =>
          (labelResult env (sanitize_username (some username)) files sp).isNone))
        (putsOf env (sanitize_username (some username)) files SPELLS) := by
    rw [submit, if_neg hname, if_neg hsel]
    simp only [submit_loop_eq]
  refine ⟨hmain, ?_, ?_, ?_⟩
  · intro sp hsp hnone
    rw [hmain]
    simp only [reportSkipped, reportSaved]
    constructor
    · rw [List.mem_filter]
      exact ⟨hsp, by rw [hnone]; rfl⟩
    · intro fid hmem
      obtain ⟨sp', hsp', he⟩ := List.mem_filterMap.mp hmem
      obtain ⟨fid', hfid', heq⟩ := Option.map_eq_some'.mp he
      obtain ⟨h1, h2⟩ := Prod.mk.injEq .. |>.mp heq
      rw [h1] at hfid'
      rw [hnone] at hfid'
      cases hfid'
  · intro b sp2 u hn
    rw [save_audio_to_mongo, hn]
  · intro b hd
    rw [normalize_stage, hd]

/-- C2 witness at the all-succeeding environment and the Ron submission:
the report is exactly the label-by-label classification. -/
theorem C2_per_label_isolation_witness :
    submit envOk (pyOfString "Ron") filesRon =
      .report
        (SPELLS.filterMap (fun sp =>
          (labelResult envOk (sanitize_username (some (pyOfString "Ron"))) filesRon sp).map
            (fun fid => (sp, fid))))
        (SPELLS.filter (fun sp =>
          (labelResult envOk (sanitize_username (some (pyOfString "Ron"))) filesRon sp).isNone))
        (putsOf envOk (sanitize_username (some (pyOfString "Ron"))) filesRon SPELLS) :=
  (C2_per_label_isolation envOk (pyOfString "Ron") filesRon (by decide) (by decide)).1

/-- C8: the loop iterates the six labels in the fixed canonical order —
every report's saved labels and skipped labels are sublists of `SPELLS`,
in that order, whatever the submitted map of recordings — and the
end-to-end Ron scenario with recordings for Lumos and Nox only and a
reachable store yields exactly those two saved entries, each with its
non-empty identifier, and the remaining four labels skipped in canonical
order. -/
theorem C8_canonical_order_scene :
    (∀ (env : Env) (username : PyStr) (files : PyStr → Option (List Nat))
        (saved : List (PyStr × PyStr)) (skipped : List PyStr) (puts : List PutCall),
        submit env username files = .report saved skipped puts →
          (saved.map Prod.fst).Sublist SPELLS ∧ skipped.Sublist SPELLS)
    ∧ reportSaved (submit envOk (pyOfString "Ron") filesRon) =
        [(pyOfString "Lumos", pyOfString "id-Lumos"),
         (pyOfString "Nox", pyOfString "id-Nox")]
    ∧ reportSkipped (submit envOk (pyOfString "Ron") filesRon) =
        [pyOfString "Alohomora", pyOfString "Wingardium Leviosa",
         pyOfString "Accio", pyOfString "Reparo"] := by
  refine ⟨?_, by decide, by decide⟩
  intro env username files saved skipped puts h
  rw [submit] at h
  by_cases h1 : pyStrip username = []
  · rw [if_pos h1] at h
    exact SubmitOutcome.noConfusion h
  · rw [if_neg h1] at h
    by_cases h2 : (SPELLS.filter (fun sp => (files sp).isSome)).length = 0
    · rw [if_pos h2] at h
      exact SubmitOutcome.noConfusion h
    · rw [if_neg h2] at h
      simp only [submit_loop_eq] at h
      injection h with hs hk hp
      constructor
      · rw [← hs, map_fst_filterMap_labels]
        exact List.filter_sublist _
      · rw [← hk]
        exact List.filter_sublist _

/-- C8 witness: the order statement applied to the concrete single-label
submission. -/
theorem C8_canonical_order_scene_witness :
    ((reportSaved (submit envOk (pyOfString "Ron") filesLumos)).map Prod.fst).Sublist SPELLS
    ∧ (reportSkipped (submit envOk (pyOfString "Ron") filesLumos)).Sublist SPELLS :=
  C8_canonical_order_scene.1 envOk (pyOfString "Ron") filesLumos
    (reportSaved (submit envOk (pyOfString "Ron") filesLumos))
    (reportSkipped (submit envOk (pyOfString "Ron") filesLumos))
    (reportPuts (submit envOk (pyOfString "Ron") filesLumos))
    (submit_is_report envOk (pyOfString "Ron") filesLumos (by decide) (by decide))

/-- C1: every byte buffer handed to the store by `save_audio_to_mongo` —
for any environment, input buffer, channel count and source rate, hence
in particular whenever decoding succeeds on a non-empty buffer — is a
canonical WAV container (RIFF/WAVE magic, consistent sizes, PCM format
tag, one channel, 16000 Hz, 16 bits per sample) whose payload is the
little-endian encoding of signed 16-bit samples in range. -/
theorem C1_store_gets_canonical_wav (env : Env) (audio_bytes : List Nat)
    (spell username : PyStr) (pc : PutCall)
    (h : pc ∈ (save_audio_to_mongo env audio_bytes spell username).2) :
    isCanonicalWav pc.bytes = true
    ∧ ∃ pcm : List ℤ, pc.bytes = wavEncode TARGET_SR pcm
        ∧ ∀ s ∈ pcm, -32767 ≤ s ∧ s ≤ 32767 := by
  have hwav : ∀ wav, normalize_stage env audio_bytes = some wav →
      ∃ pcm : List ℤ, wav = wavEncode TARGET_SR pcm
        ∧ ∀ s ∈ pcm, -32767 ≤ s ∧ s ≤ 32767 := by
    intro wav hn
    rw [normalize_stage] at hn
    split at hn
    · cases hn
    · split at hn
      · cases hn
      · split at hn
        · cases hn
        · injection hn with hn
          rename_i res heq
          refine ⟨(res.map np_clip).map quant16, hn.symm, ?_⟩
          intro s hs
          obtain ⟨y, hy, rfl⟩ := List.mem_map.mp hs
          obtain ⟨x, hx, rfl⟩ := List.mem_map.mp hy
          exact (quant16_clip_spec x).2
  rw [save_audio_to_mongo] at h
  cases hn2 : normalize_stage env audio_bytes with
  | none =>
    rw [hn2] at h
    cases h
  | some wav =>
    rw [hn2] at h
    obtain ⟨pcm, hpcm, hbound⟩ := hwav wav hn2
    have hpc : pc.bytes = wav := by
      cases hg : get_gridfs env with
      | error e => rw [hg] at h; cases h
      | ok fs =>
        rw [hg] at h
        cases fs with
        | none => cases h
        | some put =>
          simp only at h
          split at h
          · simp only [List.mem_singleton] at h
            rw [h]
          · simp only [List.mem_singleton] at h
            rw [h]
    rw [hpc, hpcm]
    exact ⟨wavEncode_canonical pcm, pcm, rfl, hbound⟩

/-- C1 witness at the all-succeeding environment: the single issued put
call carries a canonical WAV buffer. -/
theorem C1_store_gets_canonical_wav_witness :
    ((save_audio_to_mongo envOk [1] (pyOfString "Lumos") (pyOfString "ron")).2.all
      (fun pc => isCanonicalWav pc.bytes)) = true
    ∧ (save_audio_to_mongo envOk [1] (pyOfString "Lumos") (pyOfString "ron")).2.length = 1 := by
  refine ⟨?_, by decide⟩
  rw [List.all_eq_true]
  intro pc hpc
  exact (C1_store_gets_canonical_wav envOk [1] (pyOfString "Lumos") (pyOfString "ron") pc hpc).1

/-- C10: `sanitize_username` always returns a non-empty string over the
alphabet `[a-z0-9_-]`; the all-disallowed input "!!!" maps to "anon"
rather than the empty string, while its raw trimmed form is non-empty
(three code points), so such an identity passes the submission's
rejection check — which tests the raw trimmed input, not the sanitized
result — and the recording is saved with the store receiving identity
"anon" in its metadata. -/
theorem C10_sanitize_total_anon :
    (∀ name : Option PyStr, 0 < (sanitize_username name).length)
    ∧ (∀ name : Option PyStr, (sanitize_username name).all allowedLower = true)
    ∧ sanitize_username (some (pyOfString "!!!")) = pyOfString "anon"
    ∧ (pyStrip (pyOfString "!!!")).length = 3
    ∧ reportSaved (submit envOk (pyOfString "!!!") filesLumos) =
        [(pyOfString "Lumos", pyOfString "id-Lumos")]
    ∧ (reportPuts (submit envOk (pyOfString "!!!") filesLumos)).map PutCall.username =
        [pyOfString "anon"] := by
  refine ⟨sanitize_length_pos, ?_, by decide, by decide, by decide, by decide⟩
  intro name
  rw [List.all_eq_true]
  intro c hc
  exact sanitize_chars name c hc
